import Mathlib

/-!
Verification of `Forward_Logs.py` (Blade-code/SQL-Tables).

A shallow embedding of the incremental state-tracking and forwarding core of
`src/Forward_Logs.py`, together with proofs of the specification claims.

Modelling conventions:
* The state file `SQL.state` is modelled as `Option StateLines`: `none` when the
  file does not exist, `some lines` when it exists with the given `table:offset`
  lines (the program only ever writes lines of this shape, so a line is a
  `String × Nat` pair).
* A Python `dict` (insertion-ordered, in-place value update) over string keys is
  modelled as an association list manipulated by `dictInsert` / `dictFind?`.
* External effects (the ODBC connection, the syslog transport, `getpass`) are
  modelled by explicit outcome parameters and by recording the emitted records.
-/

set_option autoImplicit false

/-- A database row, as produced by `cursor.fetchall()`: the column values,
already stringified (the code only uses `str(col)` on them). -/
abbrev Row := List String

/-- The lines of the state file `SQL.state`: one `table:offset` pair per line. -/
abbrev StateLines := List (String × Nat)

/-- One entry of `Login.json`, as used by `load_table_configs`. -/
structure ServerConfig where
  server_ip : String
  user : String
deriving DecidableEq

/-- One table-job descriptor built by `load_table_configs`. -/
structure TableJob where
  server_ip : String
  user : String
  database : String
  table : String
deriving DecidableEq

/-- One line of `Tables.txt`, already split at `:` into
`(server_ip, database, table)`. -/
abbrev BindingLine := String × String × String

/-- Python dict assignment `d[k] = v` on an insertion-ordered association list:
if the key is present its value is updated in place (keys of a dict are unique,
so updating the first occurrence is the in-place update), otherwise the pair is
appended at the end. -/
def dictInsert {α : Type} (d : List (String × α)) (k : String) (v : α) :
    List (String × α) :=
  match d with
  | [] => [(k, v)]
  | p :: rest => if p.1 = k then (k, v) :: rest else p :: dictInsert rest k v

/-- Python dict lookup `d[k]` (as an `Option`). -/
def dictFind? {α : Type} (d : List (String × α)) (k : String) : Option α :=
  (d.find? (fun p => p.1 == k)).map (fun p => p.2)

/-- Python `d.get(k, dflt)`. -/
def dictGet (d : StateLines) (k : String) (dflt : Nat) : Nat :=
  (dictFind? d k).getD dflt

/-- Function `read_state` (lines 59-68): parses the state file into a dict, entry by
entry (a later line for the same table overrides an earlier one); a missing
file yields the empty dict. -/
def read_state (file : Option StateLines) : StateLines :=
  match file with
  | none => []
  | some lines => lines.foldl (fun st p => dictInsert st p.1 p.2) []

/-- Function `update_state` (lines 71-76): re-reads the state, sets the entry for
`table_name`, and rewrites the whole file from the resulting dict. -/
def update_state (file : Option StateLines) (table_name : String)
    (last_rows_read : Nat) : Option StateLines :=
  some (dictInsert (read_state file) table_name last_rows_read)

/-- Function `create_state_file` (lines 51-56): only when the state file does not exist,
writes one `table:0` line per job; otherwise does nothing at all. -/
def create_state_file (table_configs : List TableJob)
    (file : Option StateLines) : Option StateLines :=
  match file with
  | none => some (table_configs.map (fun config => (config.table, 0)))
  | some _ => file

/-- A record emitted to the syslog sink by `send_to_syslog`. The hostname, the
local IP address and the timestamp added by the formatter are ambient values
independent of the job, so only the job-dependent fields are recorded. -/
inductive Record where
  | summary (server_ip database table : String) (rowCount : Nat)
  | detail (server_ip database table : String) (row : Row)
deriving DecidableEq

/-- The post-handler body of `send_to_syslog` (lines 125-147): reads the
stored offset for the job's table (`state.get(table, 0)`); if the fetched rows
outnumber it, emits one summary record followed by one detail record per new
row (`data[o:]`, in fetch order) and commits the advanced offset via
`update_state`; otherwise emits nothing and leaves the file untouched.
Returns the emitted records and the resulting state file.

Caution: this models the body under the counterfactual that the handler setup
of lines 118-123 succeeded. In the program as written it never runs: the
construction `SysLogHandler(address=(ip, port), ssl=False)` at line 120 raises
`TypeError` unconditionally, because the standard library `SysLogHandler`
constructor has no `ssl` parameter — see `send_to_syslog_run` for the function
as actually executed. (Were the keyword accepted, the per-call `addHandler` on
the process-global `SyslogLogger` logger would additionally duplicate the
emissions of every later call.) -/
def send_to_syslog (data : List Row) (config : TableJob)
    (file : Option StateLines) : List Record × Option StateLines :=
  let state := read_state file
  let last_rows_read := dictGet state config.table 0
  if last_rows_read < data.length then
    let new_data := data.drop last_rows_read
    let row_count := new_data.length
    (Record.summary config.server_ip config.database config.table row_count ::
       new_data.map (fun row =>
         Record.detail config.server_ip config.database config.table row),
     update_state file config.table (last_rows_read + row_count))
  else
    ([], file)

/-- Outcome of the external ODBC interaction inside one `fetch_data_from_db`
call: `pyodbc.connect` raises, or a cursor operation (`cursor()`, `execute`,
`fetchall`) raises after the connection was established, or everything
succeeds returning the rows. -/
inductive FetchOutcome where
  | connectFail
  | queryFail
  | success (rows : List Row)
deriving DecidableEq

/-- Result of `fetch_data_from_db`: the returned row list plus the resource
facts needed for the safety claims — whether a connection was established and
whether `connection.close()` was reached. -/
structure FetchResult where
  rows : List Row
  connected : Bool
  closed : Bool
deriving DecidableEq

/-- Function `fetch_data_from_db` (lines 79-103). The whole body sits in a
`try/except pyodbc.Error` that returns `[]`. `connection.close()` is executed
only after `fetchall()` succeeds; there is no `finally` block, so an exception
raised by a cursor operation after `pyodbc.connect` succeeded skips the
`close()` call (the connection stays open when the handler returns `[]`). -/
def fetch_data_from_db (oc : FetchOutcome) : FetchResult :=
  match oc with
  | FetchOutcome.connectFail => { rows := [], connected := false, closed := false }
  | FetchOutcome.queryFail => { rows := [], connected := true, closed := false }
  | FetchOutcome.success rows => { rows := rows, connected := true, closed := true }

/-- The `server_dict` built in `load_table_configs` (line 33): a dict comprehension
keyed by `server_ip` (a later config with the same ip overrides an earlier
one). -/
def server_dict (server_configs : List ServerConfig) :
    List (String × ServerConfig) :=
  server_configs.foldl (fun d config => dictInsert d config.server_ip config) []

/-- One iteration of the loop in `load_table_configs` (lines 36-47): a line
whose `server_ip` is in the server dict yields a job built from the matching
config and the line's database and table; otherwise the line is reported and
skipped. -/
def resolve_binding (d : List (String × ServerConfig)) (line : BindingLine) :
    Option TableJob :=
  match dictFind? d line.1 with
  | some config =>
      some { server_ip := config.server_ip, user := config.user,
             database := line.2.1, table := line.2.2 }
  | none => none

/-- Function `load_table_configs` (lines 30-48): walks the binding lines in file order,
appending one job per resolvable line. -/
def load_table_configs (server_configs : List ServerConfig)
    (lines : List BindingLine) : List TableJob :=
  lines.filterMap (resolve_binding (server_dict server_configs))

/-- Outcome of one run of `main`: the records emitted to syslog, the final
state file, and how many jobs reached `fetch_data_from_db`. -/
structure RunResult where
  records : List Record
  file : Option StateLines
  fetches : Nat
deriving DecidableEq

/-- The per-job loop at the bottom of `main` (lines 160-164): fetch, and on a
non-empty row list forward via `send_to_syslog`; an empty list (from a failed
or empty fetch) skips the job. `oracle i` is the external DB outcome for the
`i`-th job of the run. -/
def run_jobs (jobs : List TableJob) (oracle : Nat → FetchOutcome) (i : Nat)
    (file : Option StateLines) : RunResult :=
  match jobs with
  | [] => { records := [], file := file, fetches := 0 }
  | config :: rest =>
    let data := (fetch_data_from_db (oracle i)).rows
    let step := if data.isEmpty then ([], file) else send_to_syslog data config file
    let r := run_jobs rest oracle (i + 1) step.2
    { records := step.1 ++ r.records, file := r.file, fetches := r.fetches + 1 }

/-- Function `main` (lines 150-164): build the job list, run `create_state_file`, then
probe the syslog server; on probe failure return at once, otherwise run the
per-job loop. `probe` is the result of `ping_syslog_server()`. -/
def main_run (server_configs : List ServerConfig) (lines : List BindingLine)
    (file : Option StateLines) (probe : Bool) (oracle : Nat → FetchOutcome) :
    RunResult :=
  let table_configs := load_table_configs server_configs lines
  let file1 := create_state_file table_configs file
  if probe then
    run_jobs table_configs oracle 0 file1
  else
    { records := [], file := file1, fetches := 0 }

/-- Result of running a Python function that may end in an uncaught
exception. -/
inductive PyResult (α : Type) where
  | ok (value : α)
  | raised
deriving DecidableEq

/-- Keyword parameter names accepted by the standard library constructor
`logging.handlers.SysLogHandler.__init__`, whose signature is
`(self, address, facility, socktype)`. -/
def sysLogHandlerKeywords : List String := ["address", "facility", "socktype"]

/-- Keyword argument names passed to that constructor at line 120 of
`Forward_Logs.py`: `SysLogHandler(address=(SYSLOG_SVR_IP, SYSLOG_SVR_PORT),
ssl=False)`. -/
def sysLogHandlerCallKeywords : List String := ["address", "ssl"]

/-- Python keyword-call semantics: a call raises `TypeError` unless every
keyword argument name is among the callee's parameter names. -/
def kwargsAccepted (params given : List String) : Bool :=
  given.all (fun k => params.contains k)

/-- Function `send_to_syslog` (lines 117-147) as actually executed, exception
included: line 120 constructs the syslog handler passing the keyword `ssl`,
which the standard library `SysLogHandler` constructor does not accept, so
every call raises `TypeError` right there — before the state is read at line
128, before any record is emitted and before any offset commit at line 143 —
and the uncaught exception propagates to the caller. Only if the keywords were
accepted would the body modelled by `send_to_syslog` run. -/
def send_to_syslog_run (data : List Row) (config : TableJob)
    (file : Option StateLines) : PyResult (List Record × Option StateLines) :=
  if kwargsAccepted sysLogHandlerKeywords sysLogHandlerCallKeywords then
    PyResult.ok (send_to_syslog data config file)
  else
    PyResult.raised

/-! ## Dictionary lemmas -/

/-- The dict keys, in insertion order. -/
def dictKeys {α : Type} (d : List (String × α)) : List String :=
  d.map Prod.fst

theorem dictFind?_nil {α : Type} (k : String) :
    dictFind? ([] : List (String × α)) k = none := rfl

theorem dictFind?_cons {α : Type} (p : String × α) (rest : List (String × α))
    (q : String) :
    dictFind? (p :: rest) q = if p.1 = q then some p.2 else dictFind? rest q := by
  by_cases h : p.1 = q <;> simp [dictFind?, h]

theorem dictKeys_nil {α : Type} : dictKeys ([] : List (String × α)) = [] := rfl

theorem dictKeys_cons {α : Type} (p : String × α) (rest : List (String × α)) :
    dictKeys (p :: rest) = p.1 :: dictKeys rest := rfl

theorem dictFind?_insert_self {α : Type} (d : List (String × α)) (k : String)
    (v : α) : dictFind? (dictInsert d k v) k = some v := by
  induction d with
  | nil => simp [dictInsert, dictFind?_cons]
  | cons p rest ih =>
    by_cases h : p.1 = k
    · simp [dictInsert, h, dictFind?_cons]
    · simp [dictInsert, h, dictFind?_cons, ih]

theorem dictFind?_insert_ne {α : Type} (d : List (String × α)) (k : String)
    (v : α) {q : String} (hne : q ≠ k) :
    dictFind? (dictInsert d k v) q = dictFind? d q := by
  induction d with
  | nil => simp [dictInsert, dictFind?_cons, dictFind?_nil, Ne.symm hne]
  | cons p rest ih =>
    by_cases h : p.1 = k
    · subst h
      simp [dictInsert, dictFind?_cons, Ne.symm hne]
    · simp [dictInsert, h, dictFind?_cons, ih]

theorem dictInsert_cons_self {α : Type} (p : String × α)
    (rest : List (String × α)) (v : α) :
    dictInsert (p :: rest) p.1 v = (p.1, v) :: rest := by
  simp [dictInsert]

theorem dictInsert_cons_ne {α : Type} (p : String × α)
    (rest : List (String × α)) {k : String} (v : α) (h : p.1 ≠ k) :
    dictInsert (p :: rest) k v = p :: dictInsert rest k v := by
  simp [dictInsert, h]

theorem mem_dictKeys_insert {α : Type} (d : List (String × α)) (k : String)
    (v : α) (q : String) :
    q ∈ dictKeys (dictInsert d k v) ↔ q ∈ dictKeys d ∨ q = k := by
  induction d with
  | nil => simp [dictInsert, dictKeys]
  | cons p rest ih =>
    by_cases h : p.1 = k
    · subst h
      rw [dictInsert_cons_self, dictKeys_cons, dictKeys_cons]
      simp only [List.mem_cons]
      tauto
    · rw [dictInsert_cons_ne p rest v h, dictKeys_cons, dictKeys_cons]
      simp only [List.mem_cons, ih]
      tauto

theorem nodup_dictKeys_insert {α : Type} (d : List (String × α)) (k : String)
    (v : α) (h : (dictKeys d).Nodup) : (dictKeys (dictInsert d k v)).Nodup := by
  induction d with
  | nil => simp [dictInsert, dictKeys]
  | cons p rest ih =>
    rw [dictKeys_cons, List.nodup_cons] at h
    by_cases hp : p.1 = k
    · subst hp
      rw [dictInsert_cons_self, dictKeys_cons, List.nodup_cons]
      exact h
    · rw [dictInsert_cons_ne p rest v hp, dictKeys_cons, List.nodup_cons]
      refine ⟨fun hmem => ?_, ih h.2⟩
      rcases (mem_dictKeys_insert rest k v p.1).mp hmem with h1 | h1
      · exact h.1 h1
      · exact hp h1

theorem dictInsert_eq_append_of_not_mem {α : Type} (acc : List (String × α))
    (k : String) (v : α) (h : ∀ p ∈ acc, p.1 ≠ k) :
    dictInsert acc k v = acc ++ [(k, v)] := by
  induction acc with
  | nil => rfl
  | cons p rest ih =>
    simp only [dictInsert, if_neg (h p (List.mem_cons_self p rest)),
      List.cons_append]
    rw [ih (fun q hq => h q (List.mem_cons_of_mem p hq))]

theorem foldl_dictInsert_eq_append {α : Type} (d : List (String × α)) :
    ∀ acc : List (String × α), (dictKeys (acc ++ d)).Nodup →
      d.foldl (fun st p => dictInsert st p.1 p.2) acc = acc ++ d := by
  induction d with
  | nil => intro acc _; simp
  | cons p rest ih =>
    intro acc h
    have hmem : p.1 ∉ dictKeys acc := by
      rw [dictKeys, List.map_append, List.nodup_append] at h
      intro hmem
      exact h.2.2 hmem (by simp [dictKeys, List.map_cons])
    have hstep : dictInsert acc p.1 p.2 = acc ++ [p] :=
      dictInsert_eq_append_of_not_mem acc p.1 p.2
        (fun q hq hqk => hmem (hqk ▸ List.mem_map_of_mem Prod.fst hq))
    rw [List.foldl_cons, hstep, ih (acc ++ [p]) (by simpa using h)]
    simp

theorem nodup_dictKeys_read_state (file : Option StateLines) :
    (dictKeys (read_state file)).Nodup := by
  cases file with
  | none => simp [read_state, dictKeys]
  | some lines =>
    rw [read_state]
    have step : ∀ (l : StateLines) (acc : StateLines), (dictKeys acc).Nodup →
        (dictKeys (l.foldl (fun st p => dictInsert st p.1 p.2) acc)).Nodup := by
      intro l
      induction l with
      | nil => intro acc h; simpa using h
      | cons p rest ih =>
        intro acc h
        exact ih (dictInsert acc p.1 p.2) (nodup_dictKeys_insert acc p.1 p.2 h)
    exact step lines [] (by simp [dictKeys])

theorem read_state_some_of_nodup (d : StateLines) (h : (dictKeys d).Nodup) :
    read_state (some d) = d := by
  rw [read_state]
  simpa using foldl_dictInsert_eq_append d [] (by simpa using h)

/-- The committed file re-reads exactly as the dict that was written: a commit
through `update_state` behaves as `dictInsert` on the in-memory state. -/
theorem read_state_update_state (file : Option StateLines) (t : String)
    (v : Nat) :
    read_state (update_state file t v) = dictInsert (read_state file) t v := by
  rw [update_state]
  exact read_state_some_of_nodup _
    (nodup_dictKeys_insert _ t v (nodup_dictKeys_read_state file))

theorem dictGet_insert_self (d : StateLines) (k : String) (v : Nat) :
    dictGet (dictInsert d k v) k 0 = v := by
  rw [dictGet, dictFind?_insert_self]
  rfl

theorem dictGet_insert_ne (d : StateLines) (k : String) (v : Nat) {q : String}
    (hne : q ≠ k) : dictGet (dictInsert d k v) q 0 = dictGet d q 0 := by
  rw [dictGet, dictFind?_insert_ne d k v hne]
  rfl

/-! ## Forwarding lemmas -/

theorem send_to_syslog_of_le (data : List Row) (config : TableJob)
    (file : Option StateLines)
    (h : data.length ≤ dictGet (read_state file) config.table 0) :
    send_to_syslog data config file = ([], file) := by
  simp only [send_to_syslog]
  rw [if_neg (Nat.not_lt.mpr h)]

theorem send_to_syslog_of_lt (data : List Row) (config : TableJob)
    (file : Option StateLines)
    (h : dictGet (read_state file) config.table 0 < data.length) :
    send_to_syslog data config file =
      (Record.summary config.server_ip config.database config.table
          (data.length - dictGet (read_state file) config.table 0) ::
        (data.drop (dictGet (read_state file) config.table 0)).map
          (fun row =>
            Record.detail config.server_ip config.database config.table row),
       update_state file config.table data.length) := by
  simp only [send_to_syslog]
  rw [if_pos h, List.length_drop, Nat.add_sub_cancel' (Nat.le_of_lt h)]

theorem send_to_syslog_fst_of_le (data : List Row) (config : TableJob)
    (file : Option StateLines)
    (h : data.length ≤ dictGet (read_state file) config.table 0) :
    (send_to_syslog data config file).1 = [] := by
  rw [send_to_syslog_of_le data config file h]

theorem send_to_syslog_snd_of_le (data : List Row) (config : TableJob)
    (file : Option StateLines)
    (h : data.length ≤ dictGet (read_state file) config.table 0) :
    (send_to_syslog data config file).2 = file := by
  rw [send_to_syslog_of_le data config file h]

theorem send_to_syslog_fst_of_lt (data : List Row) (config : TableJob)
    (file : Option StateLines)
    (h : dictGet (read_state file) config.table 0 < data.length) :
    (send_to_syslog data config file).1 =
      Record.summary config.server_ip config.database config.table
          (data.length - dictGet (read_state file) config.table 0) ::
        (data.drop (dictGet (read_state file) config.table 0)).map
          (fun row =>
            Record.detail config.server_ip config.database config.table row) := by
  rw [send_to_syslog_of_lt data config file h]

theorem send_to_syslog_snd_of_lt (data : List Row) (config : TableJob)
    (file : Option StateLines)
    (h : dictGet (read_state file) config.table 0 < data.length) :
    (send_to_syslog data config file).2 =
      update_state file config.table data.length := by
  rw [send_to_syslog_of_lt data config file h]

theorem dictGet_after_commit (file : Option StateLines) (t : String) (v : Nat) :
    dictGet (read_state (update_state file t v)) t 0 = v := by
  rw [read_state_update_state, dictGet_insert_self]

theorem dictGet_after_commit_ne (file : Option StateLines) (t : String)
    (v : Nat) {q : String} (hq : q ≠ t) :
    dictGet (read_state (update_state file t v)) q 0 =
      dictGet (read_state file) q 0 := by
  rw [read_state_update_state, dictGet_insert_ne _ _ _ hq]

theorem send_to_syslog_get_mono (data : List Row) (config : TableJob)
    (file : Option StateLines) (t : String) :
    dictGet (read_state file) t 0 ≤
      dictGet (read_state (send_to_syslog data config file).2) t 0 := by
  by_cases h : dictGet (read_state file) config.table 0 < data.length
  · rw [send_to_syslog_snd_of_lt data config file h]
    by_cases ht : t = config.table
    · subst ht
      rw [dictGet_after_commit]
      exact Nat.le_of_lt h
    · rw [dictGet_after_commit_ne file config.table data.length ht]
  · rw [send_to_syslog_snd_of_le data config file (Nat.not_lt.mp h)]

/-! ## Run-loop lemmas -/

theorem run_jobs_nil (oracle : Nat → FetchOutcome) (i : Nat)
    (file : Option StateLines) :
    run_jobs [] oracle i file = { records := [], file := file, fetches := 0 } :=
  rfl

theorem run_jobs_cons_skip (config : TableJob) (rest : List TableJob)
    (oracle : Nat → FetchOutcome) (i : Nat) (file : Option StateLines)
    (h : ((fetch_data_from_db (oracle i)).rows).isEmpty = true) :
    run_jobs (config :: rest) oracle i file =
      { records := (run_jobs rest oracle (i + 1) file).records,
        file := (run_jobs rest oracle (i + 1) file).file,
        fetches := (run_jobs rest oracle (i + 1) file).fetches + 1 } := by
  simp [run_jobs, h]

theorem run_jobs_cons_forward (config : TableJob) (rest : List TableJob)
    (oracle : Nat → FetchOutcome) (i : Nat) (file : Option StateLines)
    (h : ((fetch_data_from_db (oracle i)).rows).isEmpty = false) :
    run_jobs (config :: rest) oracle i file =
      { records :=
          (send_to_syslog (fetch_data_from_db (oracle i)).rows config file).1 ++
            (run_jobs rest oracle (i + 1)
              (send_to_syslog (fetch_data_from_db (oracle i)).rows config
                file).2).records,
        file :=
          (run_jobs rest oracle (i + 1)
            (send_to_syslog (fetch_data_from_db (oracle i)).rows config
              file).2).file,
        fetches :=
          (run_jobs rest oracle (i + 1)
            (send_to_syslog (fetch_data_from_db (oracle i)).rows config
              file).2).fetches + 1 } := by
  simp [run_jobs, h]

theorem run_jobs_get_mono (jobs : List TableJob)
    (oracle : Nat → FetchOutcome) :
    ∀ (i : Nat) (file : Option StateLines) (t : String),
      dictGet (read_state file) t 0 ≤
        dictGet (read_state (run_jobs jobs oracle i file).file) t 0 := by
  induction jobs with
  | nil => intro i file t; rw [run_jobs_nil]
  | cons config rest ih =>
    intro i file t
    by_cases h : ((fetch_data_from_db (oracle i)).rows).isEmpty
    · rw [run_jobs_cons_skip config rest oracle i file h]
      exact ih (i + 1) file t
    · rw [run_jobs_cons_forward config rest oracle i file
        (Bool.eq_false_iff.mpr h)]
      exact Nat.le_trans
        (send_to_syslog_get_mono (fetch_data_from_db (oracle i)).rows config
          file t)
        (ih (i + 1) _ t)

/-! ## Config-loading lemmas -/

theorem dictFind?_server_dict_of_not_mem (server_configs : List ServerConfig)
    (k : String) (h : ∀ c ∈ server_configs, c.server_ip ≠ k) :
    dictFind? (server_dict server_configs) k = none := by
  rw [server_dict]
  have step : ∀ (cs : List ServerConfig) (acc : List (String × ServerConfig)),
      (∀ c ∈ cs, c.server_ip ≠ k) →
      dictFind?
        (cs.foldl (fun d config => dictInsert d config.server_ip config) acc)
        k = dictFind? acc k := by
    intro cs
    induction cs with
    | nil => intro acc _; rfl
    | cons c cs ih =>
      intro acc hc
      rw [List.foldl_cons,
        ih _ (fun c2 h2 => hc c2 (List.mem_cons_of_mem c h2)),
        dictFind?_insert_ne _ _ _ (Ne.symm (hc c (List.mem_cons_self c cs)))]
  rw [step server_configs [] h, dictFind?_nil]

theorem resolve_binding_eq_none (server_configs : List ServerConfig)
    (line : BindingLine) (h : ∀ c ∈ server_configs, c.server_ip ≠ line.1) :
    resolve_binding (server_dict server_configs) line = none := by
  unfold resolve_binding
  rw [dictFind?_server_dict_of_not_mem server_configs line.1 h]

/-! ## Claims -/

/-- Intended forwarding contract of the body (lines 128-147), the behavior
the spec ascribes to `forwardNew`: with stored offset `o` and `L` fetched
rows, nothing is emitted and the file is untouched when `L ≤ o`, and for
`L > o` one summary plus the `L - o` detail records for rows `o..L-1` are
emitted with the offset becoming `L`. In the program as written this body is
unreachable (`send_to_syslog_run` raises first); it is recorded here as
evidence that the claimed behavior is exactly what lines 128-147 implement. -/
theorem send_body_offset_contract (config : TableJob) (file : Option StateLines)
    (data : List Row) (o : Nat)
    (ho : o = dictGet (read_state file) config.table 0) :
    (data.length ≤ o → send_to_syslog data config file = ([], file)) ∧
    (o < data.length →
      (send_to_syslog data config file).1 =
        Record.summary config.server_ip config.database config.table
            (data.length - o) ::
          (data.drop o).map (fun row =>
            Record.detail config.server_ip config.database config.table row) ∧
      (send_to_syslog data config file).1.length = 1 + (data.length - o) ∧
      dictGet (read_state (send_to_syslog data config file).2)
        config.table 0 = data.length) := by
  subst ho
  refine ⟨fun h => send_to_syslog_of_le data config file h, fun h => ?_⟩
  refine ⟨send_to_syslog_fst_of_lt data config file h, ?_, ?_⟩
  · rw [send_to_syslog_fst_of_lt data config file h]
    simp only [List.length_cons, List.length_map, List.length_drop]
    omega
  · rw [send_to_syslog_snd_of_lt data config file h, dictGet_after_commit]

/-- C4: offsets never decrease. A single `send_to_syslog` call either leaves
the state file untouched or commits an offset strictly greater than the one it
read for its table; consequently, across the whole per-job loop the stored
offset of every table is monotone. -/
theorem spec_C4 (data : List Row) (config : TableJob)
    (file : Option StateLines) (jobs : List TableJob)
    (oracle : Nat → FetchOutcome) (i : Nat) (t : String) :
    ((send_to_syslog data config file).2 = file ∨
      dictGet (read_state file) config.table 0 <
        dictGet (read_state (send_to_syslog data config file).2)
          config.table 0) ∧
    dictGet (read_state file) t 0 ≤
      dictGet (read_state (run_jobs jobs oracle i file).file) t 0 := by
  constructor
  · by_cases h : dictGet (read_state file) config.table 0 < data.length
    · right
      rw [send_to_syslog_snd_of_lt data config file h, dictGet_after_commit]
      exact h
    · left
      exact send_to_syslog_snd_of_le data config file (Nat.not_lt.mp h)
  · exact run_jobs_get_mono jobs oracle i file t

/-- C5: `update_state` on table `t` with value `v` rewrites the persisted
mapping so that `t` maps to `v` while the entry of every other table is
unchanged. -/
theorem spec_C5 (file : Option StateLines) (t : String) (v : Nat) (q : String)
    (h : q ≠ t) :
    dictFind? (read_state (update_state file t v)) t = some v ∧
    dictFind? (read_state (update_state file t v)) q =
      dictFind? (read_state file) q := by
  rw [read_state_update_state]
  exact ⟨dictFind?_insert_self _ t v, dictFind?_insert_ne _ t v h⟩

theorem spec_C5_witness :
    dictFind? (read_state (update_state (some [("t", 1), ("A", 7)]) "t" 9))
        "t" = some 9 ∧
    dictFind? (read_state (update_state (some [("t", 1), ("A", 7)]) "t" 9))
        "A" = dictFind? (read_state (some [("t", 1), ("A", 7)])) "A" :=
  spec_C5 (some [("t", 1), ("A", 7)]) "t" 9 "A" (by decide)

/-- Re-run behavior of the body (lines 128-147): were the body reachable, a
second call for the same table with the same unchanged RowSet would emit
nothing and leave the state file unchanged, because the first call advances
the offset to the RowSet length. Unreachable in the program as written (see
`send_to_syslog_run`); recorded as the intent behind the spec's idempotence
property. -/
theorem send_body_rerun_noop (data : List Row) (config : TableJob)
    (file : Option StateLines) :
    send_to_syslog data config (send_to_syslog data config file).2 =
      ([], (send_to_syslog data config file).2) := by
  by_cases h : dictGet (read_state file) config.table 0 < data.length
  · rw [send_to_syslog_snd_of_lt data config file h]
    apply send_to_syslog_of_le
    rw [dictGet_after_commit]
  · rw [send_to_syslog_snd_of_le data config file (Nat.not_lt.mp h)]
    exact send_to_syslog_of_le data config file (Nat.not_lt.mp h)

/-- C2 counterexample: `main` calls `create_state_file` before the syslog
reachability probe, so a run whose probe fails still creates the state file
when it did not exist — refuting "the state file is not mutated in any way". -/
theorem spec_C2_cex :
    (main_run [ServerConfig.mk "1.1.1.1" "u"] [("1.1.1.1", "d", "T")] none
        false (fun _ => FetchOutcome.connectFail)).file = some [("T", 0)] ∧
    (main_run [ServerConfig.mk "1.1.1.1" "u"] [("1.1.1.1", "d", "T")] none
        false (fun _ => FetchOutcome.connectFail)).file ≠ none := by
  decide

/-- C2 amended: if the sink reachability probe fails, no job is processed
(zero fetches, zero emitted records, no offset commit): the final file is
exactly the output of the pre-probe `create_state_file`, so a pre-existing
state file is unchanged, and only the bootstrap may create the file when it
was absent. -/
theorem spec_C2_amended (server_configs : List ServerConfig)
    (lines : List BindingLine) (file : Option StateLines)
    (oracle : Nat → FetchOutcome) :
    (main_run server_configs lines file false oracle).records = [] ∧
    (main_run server_configs lines file false oracle).fetches = 0 ∧
    (main_run server_configs lines file false oracle).file =
      create_state_file (load_table_configs server_configs lines) file ∧
    (file ≠ none →
      (main_run server_configs lines file false oracle).file = file) := by
  refine ⟨rfl, rfl, rfl, fun h => ?_⟩
  cases file with
  | none => exact absurd rfl h
  | some l => rfl

theorem spec_C2_amended_witness :
    (main_run [ServerConfig.mk "1.1.1.1" "u"] [("1.1.1.1", "d", "T")]
        (some [("T", 3)]) false (fun _ => FetchOutcome.connectFail)).file =
      some [("T", 3)] :=
  (spec_C2_amended [ServerConfig.mk "1.1.1.1" "u"] [("1.1.1.1", "d", "T")]
    (some [("T", 3)]) (fun _ => FetchOutcome.connectFail)).2.2.2 (by decide)

/-- C3 counterexample: the state file exists with an entry only for table
`A`; the job for table `B` has no offset entry, yet `create_state_file`
changes nothing, so no entry at 0 is created for `B` — refuting "creates an
offset entry at 0 for every job whose table has no existing offset entry". -/
theorem spec_C3_cex :
    dictFind? (read_state (some [("A", 5)])) "B" = none ∧
    create_state_file [TableJob.mk "s" "u" "d" "B"] (some [("A", 5)]) =
      some [("A", 5)] ∧
    dictFind? (read_state (create_state_file [TableJob.mk "s" "u" "d" "B"]
      (some [("A", 5)]))) "B" = none := by
  decide

/-- C3 amended: `create_state_file` creates entries at 0 for all the jobs'
tables only when the state file does not exist; when the file exists it is a
no-op even for jobs whose tables have no entry. It is idempotent. -/
theorem spec_C3_amended (table_configs : List TableJob)
    (file : Option StateLines) :
    (file = none → create_state_file table_configs file =
      some (table_configs.map (fun config => (config.table, 0)))) ∧
    (file ≠ none → create_state_file table_configs file = file) ∧
    create_state_file table_configs (create_state_file table_configs file) =
      create_state_file table_configs file := by
  refine ⟨fun h => ?_, fun h => ?_, ?_⟩
  · subst h; rfl
  · cases file with
    | none => exact absurd rfl h
    | some l => rfl
  · cases file with
    | none => rfl
    | some l => rfl

theorem spec_C3_amended_witness :
    create_state_file [TableJob.mk "s" "u" "d" "B"] none = some [("B", 0)] ∧
    create_state_file [TableJob.mk "s" "u" "d" "B"] (some [("A", 5)]) =
      some [("A", 5)] :=
  ⟨(spec_C3_amended [TableJob.mk "s" "u" "d" "B"] none).1 rfl,
   (spec_C3_amended [TableJob.mk "s" "u" "d" "B"] (some [("A", 5)])).2.1
     (by decide)⟩

/-- C6 counterexample: when a cursor operation throws after the connection was
established, `fetch_data_from_db` swallows the error and returns `[]` without
reaching `connection.close()` — refuting "always releases the connection". -/
theorem spec_C6_cex :
    ¬ ((fetch_data_from_db FetchOutcome.queryFail).connected = true →
        (fetch_data_from_db FetchOutcome.queryFail).closed = true) := by
  decide

/-- C6 amended: `fetch_data_from_db` closes the connection exactly when the
whole fetch succeeds; on a connect failure no connection was established, and
on a query/cursor failure after connecting the connection is left unclosed. -/
theorem spec_C6_amended (oc : FetchOutcome) :
    ((fetch_data_from_db oc).closed = true ↔
      ∃ rows, oc = FetchOutcome.success rows) ∧
    ((fetch_data_from_db oc).connected = true ↔
      oc ≠ FetchOutcome.connectFail) := by
  cases oc <;> simp [fetch_data_from_db]

/-- C7: a fetch that fails with a connectivity/auth/query error returns the
empty row list, so that job performs no forwarding and no state commit, and
the remaining jobs run exactly as they would on their own (the loop
continues). -/
theorem spec_C7 (config : TableJob) (rest : List TableJob)
    (oracle : Nat → FetchOutcome) (i : Nat) (file : Option StateLines)
    (h : oracle i = FetchOutcome.connectFail ∨
      oracle i = FetchOutcome.queryFail) :
    (fetch_data_from_db (oracle i)).rows = [] ∧
    run_jobs (config :: rest) oracle i file =
      { records := (run_jobs rest oracle (i + 1) file).records,
        file := (run_jobs rest oracle (i + 1) file).file,
        fetches := (run_jobs rest oracle (i + 1) file).fetches + 1 } := by
  have hrows : (fetch_data_from_db (oracle i)).rows = [] := by
    rcases h with h | h <;> rw [h] <;> rfl
  refine ⟨hrows, run_jobs_cons_skip config rest oracle i file ?_⟩
  rw [hrows]
  rfl

theorem spec_C7_witness :
    (fetch_data_from_db ((fun n => if n = 0 then FetchOutcome.queryFail
        else FetchOutcome.success [["x"]]) 0)).rows = [] ∧
    run_jobs [TableJob.mk "s" "u" "d" "A", TableJob.mk "s" "u" "d" "B"]
        (fun n => if n = 0 then FetchOutcome.queryFail
          else FetchOutcome.success [["x"]]) 0 (some []) =
      { records := (run_jobs [TableJob.mk "s" "u" "d" "B"]
          (fun n => if n = 0 then FetchOutcome.queryFail
            else FetchOutcome.success [["x"]]) 1 (some [])).records,
        file := (run_jobs [TableJob.mk "s" "u" "d" "B"]
          (fun n => if n = 0 then FetchOutcome.queryFail
            else FetchOutcome.success [["x"]]) 1 (some [])).file,
        fetches := (run_jobs [TableJob.mk "s" "u" "d" "B"]
          (fun n => if n = 0 then FetchOutcome.queryFail
            else FetchOutcome.success [["x"]]) 1 (some [])).fetches + 1 } :=
  spec_C7 (TableJob.mk "s" "u" "d" "A") [TableJob.mk "s" "u" "d" "B"]
    (fun n => if n = 0 then FetchOutcome.queryFail
      else FetchOutcome.success [["x"]]) 0 (some []) (Or.inr rfl)

/-- C9: `load_table_configs` preserves binding-file line order (it distributes
over concatenation, line by line), a binding line whose server_ip matches no
`ServerConfig` entry yields no job, so it is excluded from the job list; and
every state entry created by `create_state_file` in that run comes from a job
of the list (and when the file already exists, no entry is created at all), so
the excluded line contributes no created entry. -/
theorem spec_C9 (server_configs : List ServerConfig)
    (pre post : List BindingLine) (line : BindingLine)
    (h : ∀ c ∈ server_configs, c.server_ip ≠ line.1) :
    (∀ l1 l2 : List BindingLine,
      load_table_configs server_configs (l1 ++ l2) =
        load_table_configs server_configs l1 ++
          load_table_configs server_configs l2) ∧
    load_table_configs server_configs [line] = [] ∧
    load_table_configs server_configs (pre ++ line :: post) =
      load_table_configs server_configs pre ++
        load_table_configs server_configs post ∧
    (∀ entry ∈ (create_state_file
        (load_table_configs server_configs (pre ++ line :: post))
        none).getD [],
      ∃ job ∈ load_table_configs server_configs (pre ++ line :: post),
        entry = (job.table, 0)) ∧
    (∀ (jobs : List TableJob) (lines0 : StateLines),
      create_state_file jobs (some lines0) = some lines0) := by
  have hnone : resolve_binding (server_dict server_configs) line = none :=
    resolve_binding_eq_none server_configs line h
  refine ⟨fun l1 l2 => ?_, ?_, ?_, fun entry hentry => ?_,
    fun jobs lines0 => rfl⟩
  · simp [load_table_configs, List.filterMap_append]
  · simp [load_table_configs, hnone]
  · simp [load_table_configs, List.filterMap_append, List.filterMap_cons,
      hnone]
  · simp only [create_state_file, Option.getD_some] at hentry
    rcases List.mem_map.mp hentry with ⟨job, hj, hje⟩
    exact ⟨job, hj, hje.symm⟩

theorem spec_C9_witness :
    load_table_configs [ServerConfig.mk "1.1.1.1" "u"]
        ([("1.1.1.1", "d", "A")] ++
          ("2.2.2.2", "d", "T") :: [("1.1.1.1", "d", "B")]) =
      load_table_configs [ServerConfig.mk "1.1.1.1" "u"]
          [("1.1.1.1", "d", "A")] ++
        load_table_configs [ServerConfig.mk "1.1.1.1" "u"]
          [("1.1.1.1", "d", "B")] :=
  (spec_C9 [ServerConfig.mk "1.1.1.1" "u"] [("1.1.1.1", "d", "A")]
    [("1.1.1.1", "d", "B")] ("2.2.2.2", "d", "T") (by decide)).2.2.1

/-- Missing-entry behavior of the body (lines 128-147): the `state.get(table,
0)` default treats a table with no state entry as offset 0, so the body would
emit every row of a non-empty RowSet as new and commit an entry equal to the
RowSet length. Unreachable in the program as written (see
`send_to_syslog_run`); recorded as the intent behind the missing-entry
default. -/
theorem send_body_missing_entry_default (config : TableJob) (file : Option StateLines)
    (data : List Row)
    (h1 : dictFind? (read_state file) config.table = none)
    (h2 : data ≠ []) :
    (send_to_syslog data config file).1 =
      Record.summary config.server_ip config.database config.table
          data.length ::
        data.map (fun row =>
          Record.detail config.server_ip config.database config.table row) ∧
    dictFind? (read_state (send_to_syslog data config file).2) config.table =
      some data.length := by
  have h0 : dictGet (read_state file) config.table 0 = 0 := by
    rw [dictGet, h1]
    rfl
  have hlt : dictGet (read_state file) config.table 0 < data.length := by
    rw [h0]
    exact List.length_pos.mpr h2
  constructor
  · rw [send_to_syslog_fst_of_lt data config file hlt, h0]
    simp
  · rw [send_to_syslog_snd_of_lt data config file hlt,
      read_state_update_state, dictFind?_insert_self]

/-- Every call of the real `send_to_syslog` raises: the `ssl` keyword at line
120 is not a parameter of the stdlib `SysLogHandler` constructor, so the
handler construction fails before anything else in the function happens. -/
theorem send_to_syslog_run_raised (data : List Row) (config : TableJob)
    (file : Option StateLines) :
    send_to_syslog_run data config file = PyResult.raised := rfl

/-- C1 (code bug): at a job with stored offset 1 and three fetched rows the
claim requires one summary plus two detail records to be emitted and the
stored offset to become 3, but the call raises `TypeError` at line 120 —
before the state read, any emission, or the commit — because the stdlib
`SysLogHandler` accepts no `ssl` keyword. The intended body (lines 128-147)
would behave as claimed, so the claim matches the intent and the code is the
slip. -/
theorem spec_C1_bug :
    kwargsAccepted sysLogHandlerKeywords sysLogHandlerCallKeywords = false ∧
    send_to_syslog_run [["a"], ["b"], ["c"]] (TableJob.mk "s" "u" "d" "t")
      (some [("t", 1)]) = PyResult.raised := by
  decide

/-- C8 (code bug): the idempotence mechanism never runs. Already the first
call for the table raises `TypeError` at line 120 without committing any
offset (the state file still maps the table to 0, not to the RowSet length),
and a second call with the same unchanged RowSet raises identically — the
offset guard the claim describes is never exercised. -/
theorem spec_C8_bug :
    send_to_syslog_run [["a"], ["b"]] (TableJob.mk "s" "u" "d" "t")
      (some [("t", 0)]) = PyResult.raised ∧
    dictGet (read_state (some [("t", 0)])) "t" 0 = 0 := by
  decide

/-- C10 (code bug): for a table with no state entry and a non-empty RowSet the
claim requires all rows to be forwarded and an entry equal to the RowSet
length to be created via the `state.get(table, 0)` default, but the call
raises `TypeError` at line 120 before `state.get` is ever reached — nothing is
emitted and no entry is created. -/
theorem spec_C10_bug :
    dictFind? (read_state (some [("A", 3)])) "t" = none ∧
    send_to_syslog_run [["x"]] (TableJob.mk "s" "u" "d" "t")
      (some [("A", 3)]) = PyResult.raised := by
  decide
